import Mathlib

/-!
Verification of the concurrent progress-tracking core of tqdm++ (`tqdm.h`).

The embedding models:
- `progress_tracker` : the shared counter (`current_`, `total_`), the 64-slot
  ring buffer of `(progress, timestamp)` samples and its write cursor
  (`history_index_`), with all `std::size_t` arithmetic taken modulo `2^64`
  and timestamps as `int64_t` values embedded in `Int`;
- `advance`, `percentage`, `get_rate` (the recompute path), `eta`;
- `progress_bar` : the finished flag, the render-throttle gate
  (`try_render`), `finish`, the destructor, and the move operations;
- `progress_iterator::operator++` for the range wrapper.

Doubles (`percentage`, rates, eta seconds) are modelled over `ℚ`; the
`static_cast<int64_t>` truncation in `eta` is `Int.floor` (its argument is
never negative on the code's branch).
-/

namespace Tqdm

/-- Modulus of `std::size_t` arithmetic (64-bit). -/
def U64 : Nat := 2 ^ 64

/-- Constant `HISTORY_SIZE` from `progress_tracker` (ring-buffer capacity). -/
def HISTORY_SIZE : Nat := 64

/-- Value of `std::numeric_limits<int64_t>::max()`. -/
def INT64_MAX : Int := 9223372036854775807

/-- Unsigned 64-bit subtraction `a - b` on `std::size_t` (wraps mod `2^64`). -/
def sub64 (a b : Nat) : Nat := (((a : Int) - (b : Int)) % (2 ^ 64)).toNat

/-- One ring-buffer entry (`history_entry`): progress value and microsecond
timestamp since tracker start. -/
structure Sample where
  progress : Nat
  timestamp : Int
deriving DecidableEq, Repr

/-- State of `progress_tracker`: `current_`, `total_`, the ring buffer
(slots `0..63` of the function), and the write cursor `history_index_`. -/
structure TrackerState where
  current : Nat
  total : Nat
  history : Nat → Sample
  history_index : Nat

/-- The `progress_tracker` constructor: zero counter, zeroed history, cursor 0. -/
def tracker_init (total : Nat) : TrackerState :=
  { current := 0
    total := total
    history := fun _ => ⟨0, 0⟩
    history_index := 0 }

/-- Operation `advance(n)`: `current_.fetch_add(n) + n` (size_t, wraps), then writes one
sample `(new_progress, ts)` at slot `history_index_.fetch_add(1) % 64`.
`ts` stands for the `now - start_time_` microsecond duration computed there. -/
def advance (st : TrackerState) (n : Nat) (ts : Int) : TrackerState :=
  let new_progress := (st.current + n) % U64
  let idx := st.history_index % HISTORY_SIZE
  { st with
    current := new_progress
    history := Function.update st.history idx ⟨new_progress, ts⟩
    history_index := (st.history_index + 1) % U64 }

/-- A sequence of `advance(n_i)` calls with their timestamps, applied in
the order the atomic operations interleaved. -/
def run_advances (st : TrackerState) (ops : List (Nat × Int)) : TrackerState :=
  ops.foldl (fun s op => advance s op.1 op.2) st

/-- Sum of the increments of a call sequence. -/
def sum_incs : List (Nat × Int) → Nat
  | [] => 0
  | op :: rest => op.1 + sum_incs rest

/-- Operation `percentage()`: `0` if total is `0`, else `min(100*current/total, 100)`
(doubles modelled over `ℚ`). -/
def percentage (st : TrackerState) : ℚ :=
  if st.total = 0 then 0
  else min (100 * (st.current : ℚ) / (st.total : ℚ)) 100

/-- Accumulator of `get_rate`'s scan over the ring buffer:
`oldest_idx`, `oldest_time` (initialized to `INT64_MAX`), `newest_idx`,
`newest_time` (initialized to `0`). -/
structure ScanState where
  oldest_idx : Nat
  oldest_time : Int
  newest_idx : Nat
  newest_time : Int
deriving DecidableEq, Repr

/-- Initial scan accumulator of `get_rate`. -/
def scanInit : ScanState := ⟨0, INT64_MAX, 0, 0⟩

/-- One iteration of `get_rate`'s loop body at slot `i`: when the slot's
timestamp is positive, take it as the new oldest if it is below the current
oldest time, and as the new newest if it is above the current newest time
(the two updates touch disjoint fields, so the sequential C++ updates equal
this simultaneous record). -/
def scanStep (t : Nat → Int) (s : ScanState) (i : Nat) : ScanState :=
  if 0 < t i then
    { oldest_idx := if t i < s.oldest_time then i else s.oldest_idx
      oldest_time := if t i < s.oldest_time then t i else s.oldest_time
      newest_idx := if s.newest_time < t i then i else s.newest_idx
      newest_time := if s.newest_time < t i then t i else s.newest_time }
  else s

/-- The scan of `get_rate` over slots `0 .. e-1` (ascending, as the C++ loop). -/
def scanLoop (t : Nat → Int) : Nat → ScanState
  | 0 => scanInit
  | m + 1 => scanStep t (scanLoop t m) m

/-- The ring buffer's timestamps as a function of the slot index. -/
def history_times (st : TrackerState) : Nat → Int :=
  fun i => (st.history i).timestamp

/-- Value `entries_to_check = min(HISTORY_SIZE, history_index_)`. -/
def entries_to_check (st : TrackerState) : Nat :=
  min HISTORY_SIZE st.history_index

/-- The scanned slots holding a valid sample (timestamp `> 0`). -/
def valid_slots (t : Nat → Int) (e : Nat) : List Nat :=
  (List.range e).filter (fun i => 0 < t i)

/-- Minimum valid timestamp among the scanned slots (`INT64_MAX` if none). -/
def min_valid_time (t : Nat → Int) (e : Nat) : Int :=
  ((valid_slots t e).map t).foldl min INT64_MAX

/-- Maximum valid timestamp among the scanned slots (`0` if none). -/
def max_valid_time (t : Nat → Int) (e : Nat) : Int :=
  ((valid_slots t e).map t).foldl max 0

/-- The rate `get_rate` builds from the finished scan: when the newest time
exceeds the oldest and the two indices differ, `1e6 * (newest.progress -
oldest.progress) / (newest_time - oldest_time)` with size_t subtraction on
the progress values; otherwise `0.0`. -/
def rate_from_scan (st : TrackerState) (s : ScanState) : ℚ :=
  if s.oldest_time < s.newest_time ∧ s.newest_idx ≠ s.oldest_idx then
    if 0 < s.newest_time - s.oldest_time then
      1000000 *
        (sub64 (st.history s.newest_idx).progress
               (st.history s.oldest_idx).progress : ℚ) /
        ((s.newest_time - s.oldest_time : Int) : ℚ)
    else 0
  else 0

/-- Operation `get_rate()` on its recompute path (cache stale): scan the first
`min(HISTORY_SIZE, history_index_)` slots and form the rate. -/
def get_rate_recompute (st : TrackerState) : ℚ :=
  rate_from_scan st (scanLoop (history_times st) (entries_to_check st))

/-- Operation `eta()`: `0` when the rate is `≤ 0`; otherwise
`milliseconds(int64((total_ - current_) / rate * 1000))` where the
subtraction is unsigned 64-bit and the int64 cast truncates (floor, since
the value is non-negative here). -/
def eta_ms (st : TrackerState) (rate : ℚ) : Int :=
  if rate ≤ 0 then 0
  else Int.floor ((sub64 st.total st.current : ℚ) / rate * 1000)

/-- State of `progress_bar`: whether the `tracker_` and `display_` unique
pointers are non-null, the `finished_` flag, the `last_render_time_`
millisecond timestamp, and the injected interactive-output signal that
`is_tty()` reads from the environment. -/
structure BarState where
  hasTracker : Bool
  hasDisplay : Bool
  finished : Bool
  last_render_time : Int
  tty : Bool
deriving DecidableEq, Repr

/-- Constant `min_render_interval` (milliseconds). -/
def min_render_interval : Int := 33

/-- Operation `finish()`: compare-and-swap `finished_` from false to true; only the
winner, and only when `is_tty() && tracker_ && display_`, dispatches the
display collaborator's terminal `finish` operation.  Returns the new state
and whether a terminal render was dispatched. -/
def finish (b : BarState) : BarState × Bool :=
  if b.finished then (b, false)
  else ({ b with finished := true }, b.tty && b.hasTracker && b.hasDisplay)

/-- Operation `finish()` called `n` times in sequence; returns the final state and the
number of terminal render dispatches. -/
def finishN (b : BarState) : Nat → BarState × Nat
  | 0 => (b, 0)
  | n + 1 =>
      let r := finishN b n
      let f := finish r.1
      (f.1, r.2 + (if f.2 then 1 else 0))

/-- Destructor `~progress_bar()`: `if (!finished_.load() && is_tty()) finish();`.
Returns the number of terminal render dispatches destruction produces. -/
def bar_destructor_renders (b : BarState) : Nat :=
  if !b.finished && b.tty then (if (finish b).2 then 1 else 0) else 0

/-- Move constructor: the tracker and display pointers move to the new bar,
`finished_` and `last_render_time_` are copied, and the source's
`finished_` flag is then set.  Returns (new bar, source after the move). -/
def move_construct (other : BarState) : BarState × BarState :=
  ({ hasTracker := other.hasTracker
     hasDisplay := other.hasDisplay
     finished := other.finished
     last_render_time := other.last_render_time
     tty := other.tty },
   { hasTracker := false
     hasDisplay := false
     finished := true
     last_render_time := other.last_render_time
     tty := other.tty })

/-- Move assignment (`this != &other` case): target takes the source's
pointers, flag and timestamp; the source's `finished_` flag is then set.
Returns (new target state, source after the move). -/
def move_assign (_target other : BarState) : BarState × BarState :=
  ({ hasTracker := other.hasTracker
     hasDisplay := other.hasDisplay
     finished := other.finished
     last_render_time := other.last_render_time
     tty := other.tty },
   { hasTracker := false
     hasDisplay := false
     finished := true
     last_render_time := other.last_render_time
     tty := other.tty })

/-- Operation `try_render()`: returns immediately when not a tty or pointers are null;
otherwise a render is dispatched only when `now - last_render_time_ >=
min_render_interval` and the compare-and-swap installing `now` succeeds.
Returns the new state and whether a render was dispatched. -/
def try_render (b : BarState) (now : Int) : BarState × Bool :=
  if b.tty && b.hasTracker && b.hasDisplay then
    if min_render_interval ≤ now - b.last_render_time then
      ({ b with last_render_time := now }, true)
    else (b, false)
  else (b, false)

/-- A fresh, active bar attached to a non-interactive output (tty = false). -/
def bar_no_tty : BarState :=
  { hasTracker := true, hasDisplay := true, finished := false
    last_render_time := 0, tty := false }

/-- Increment `progress_iterator::operator++` for an iterator obtained from `begin()`
(non-null bar pointer), abstracted to its position in a container of `n`
elements: increment the position, then call `advance()` on the bar only when
the new position is not yet `end`.  State is (position, advance-call count). -/
def progress_iterator_step (n : Nat) (s : Nat × Nat) : Nat × Nat :=
  let pos := s.1 + 1
  if pos ≠ n then (pos, s.2 + 1) else (pos, s.2)

/-- A complete begin-to-end range iteration over `n` elements: `n` dereference
steps, each followed by one `operator++`.  Returns the final position and
the number of `advance()` calls made on the bar. -/
def full_iteration (n : Nat) : Nat × Nat :=
  (List.range n).foldl (fun s _ => progress_iterator_step n s) (0, 0)

/-- An overshooting tracker: one unit of progress against a total of zero. -/
def st_overshoot : TrackerState :=
  { current := 1, total := 0, history := fun _ => ⟨0, 0⟩, history_index := 0 }

/-- A tracker that has seen two advances: +10 at 5 µs and +20 at 15 µs. -/
def st_two_samples : TrackerState :=
  run_advances (tracker_init 100) [(10, 5), (20, 15)]

lemma advance_current (st : TrackerState) (n : Nat) (ts : Int) :
    (advance st n ts).current = (st.current + n) % U64 := rfl

lemma run_advances_current (ops : List (Nat × Int)) :
    ∀ st : TrackerState, st.current < U64 →
      (run_advances st ops).current = (st.current + sum_incs ops) % U64 := by
  induction ops with
  | nil =>
      intro st h
      simp [run_advances, sum_incs, Nat.mod_eq_of_lt h]
  | cons op rest ih =>
      intro st h
      have hlt : (advance st op.1 op.2).current < U64 := by
        rw [advance_current]
        exact Nat.mod_lt _ (by norm_num [U64])
      have : run_advances st (op :: rest) = run_advances (advance st op.1 op.2) rest := rfl
      rw [this, ih _ hlt, advance_current, Nat.mod_add_mod, sum_incs]
      ring_nf

lemma finish_of_finished (b : BarState) (h : b.finished = true) :
    finish b = (b, false) := by
  simp [finish, h]

lemma finishN_of_active (b : BarState) (hf : b.finished = false) :
    ∀ n, 1 ≤ n →
      finishN b n =
        ({ b with finished := true },
         if b.tty && b.hasTracker && b.hasDisplay then 1 else 0) := by
  intro n
  induction n with
  | zero => omega
  | succ m ih =>
      intro _
      by_cases hm : 1 ≤ m
      · have hr := ih hm
        simp only [finishN, hr]
        rw [finish_of_finished _ (by rfl)]
        simp
      · have hm0 : m = 0 := by omega
        subst hm0
        simp only [finishN, finish, hf]
        simp

lemma sub64_of_le (a b : Nat) (hba : b ≤ a) (h : a - b < 2 ^ 64) :
    sub64 a b = a - b := by
  unfold sub64
  have e1 : ((2 : Int) ^ 64) = 18446744073709551616 := by norm_num
  have e2 : ((2 : Nat) ^ 64) = 18446744073709551616 := by norm_num
  rw [e1]
  rw [e2] at h
  omega

lemma sub64_of_lt (a b : Nat) (hab : a < b) (hb : b < 2 ^ 64) :
    sub64 a b = 2 ^ 64 - (b - a) := by
  unfold sub64
  have e1 : ((2 : Int) ^ 64) = 18446744073709551616 := by norm_num
  have e2 : ((2 : Nat) ^ 64) = 18446744073709551616 := by norm_num
  rw [e1, e2]
  rw [e2] at hb
  omega

lemma min_valid_time_nil (t : Nat → Int) (e : Nat) (h : valid_slots t e = []) :
    min_valid_time t e = INT64_MAX := by
  simp [min_valid_time, h]

lemma max_valid_time_nil (t : Nat → Int) (e : Nat) (h : valid_slots t e = []) :
    max_valid_time t e = 0 := by
  simp [max_valid_time, h]

lemma scanLoop_spec (t : Nat → Int) :
    ∀ e : Nat, (∀ i, i < e → t i < INT64_MAX) →
      (scanLoop t e).oldest_time = min_valid_time t e ∧
      (scanLoop t e).newest_time = max_valid_time t e ∧
      (valid_slots t e ≠ [] →
        (scanLoop t e).oldest_idx ∈ valid_slots t e ∧
        t (scanLoop t e).oldest_idx = (scanLoop t e).oldest_time ∧
        (scanLoop t e).newest_idx ∈ valid_slots t e ∧
        t (scanLoop t e).newest_idx = (scanLoop t e).newest_time) := by
  intro e
  induction e with
  | zero =>
      intro _
      exact ⟨rfl, rfl, fun hne => absurd rfl hne⟩
  | succ m ih =>
      intro ht
      have htm : ∀ i, i < m → t i < INT64_MAX := fun i hi => ht i (Nat.lt_succ_of_lt hi)
      obtain ⟨iho, ihn, ihmem⟩ := ih htm
      have htmm : t m < INT64_MAX := ht m (Nat.lt_succ_self m)
      by_cases hpos : 0 < t m
      · have hv : valid_slots t (m + 1) = valid_slots t m ++ [m] := by
          simp [valid_slots, List.range_succ, List.filter_append, hpos]
        have hmin : min_valid_time t (m + 1) = min (min_valid_time t m) (t m) := by
          simp [min_valid_time, hv]
        have hmax : max_valid_time t (m + 1) = max (max_valid_time t m) (t m) := by
          simp [max_valid_time, hv]
        have hloop : scanLoop t (m + 1) = scanStep t (scanLoop t m) m := rfl
        have hoT : (scanStep t (scanLoop t m) m).oldest_time =
            if t m < (scanLoop t m).oldest_time then t m
            else (scanLoop t m).oldest_time := by
          simp [scanStep, hpos]
        have hoI : (scanStep t (scanLoop t m) m).oldest_idx =
            if t m < (scanLoop t m).oldest_time then m
            else (scanLoop t m).oldest_idx := by
          simp [scanStep, hpos]
        have hnT : (scanStep t (scanLoop t m) m).newest_time =
            if (scanLoop t m).newest_time < t m then t m
            else (scanLoop t m).newest_time := by
          simp [scanStep, hpos]
        have hnI : (scanStep t (scanLoop t m) m).newest_idx =
            if (scanLoop t m).newest_time < t m then m
            else (scanLoop t m).newest_idx := by
          simp [scanStep, hpos]
        have hmem_new : m ∈ valid_slots t (m + 1) := by
          rw [hv]
          exact List.mem_append_right _ (by simp)
        rw [hloop]
        by_cases h1 : t m < (scanLoop t m).oldest_time <;>
          by_cases h2 : (scanLoop t m).newest_time < t m

        · refine ⟨?_, ?_, fun _ => ⟨?_, ?_, ?_, ?_⟩⟩
          · rw [hoT, if_pos h1, hmin, ← iho]
            exact (min_eq_right (le_of_lt h1)).symm
          · rw [hnT, if_pos h2, hmax, ← ihn]
            exact (max_eq_right (le_of_lt h2)).symm
          · rw [hoI, if_pos h1]
            exact hmem_new
          · rw [hoI, hoT, if_pos h1, if_pos h1]
          · rw [hnI, if_pos h2]
            exact hmem_new
          · rw [hnI, hnT, if_pos h2, if_pos h2]
        · have hvm : valid_slots t m ≠ [] := by
            intro hemp
            have h0 := max_valid_time_nil t m hemp
            omega
          obtain ⟨-, -, hnmem, hneq⟩ := ihmem hvm
          refine ⟨?_, ?_, fun _ => ⟨?_, ?_, ?_, ?_⟩⟩
          · rw [hoT, if_pos h1, hmin, ← iho]
            exact (min_eq_right (le_of_lt h1)).symm
          · rw [hnT, if_neg h2, hmax, ← ihn]
            exact (max_eq_left (le_of_not_lt h2)).symm
          · rw [hoI, if_pos h1]
            exact hmem_new
          · rw [hoI, hoT, if_pos h1, if_pos h1]
          · rw [hnI, if_neg h2, hv]
            exact List.mem_append_left _ hnmem
          · rw [hnI, hnT, if_neg h2, if_neg h2]
            exact hneq
        · have hvm : valid_slots t m ≠ [] := by
            intro hemp
            have h0 := min_valid_time_nil t m hemp
            omega
          obtain ⟨homem, hoeq, -, -⟩ := ihmem hvm
          refine ⟨?_, ?_, fun _ => ⟨?_, ?_, ?_, ?_⟩⟩
          · rw [hoT, if_neg h1, hmin, ← iho]
            exact (min_eq_left (le_of_not_lt h1)).symm
          · rw [hnT, if_pos h2, hmax, ← ihn]
            exact (max_eq_right (le_of_lt h2)).symm
          · rw [hoI, if_neg h1, hv]
            exact List.mem_append_left _ homem
          · rw [hoI, hoT, if_neg h1, if_neg h1]
            exact hoeq
          · rw [hnI, if_pos h2]
            exact hmem_new
          · rw [hnI, hnT, if_pos h2, if_pos h2]
        · have hvm : valid_slots t m ≠ [] := by
            intro hemp
            have h0 := min_valid_time_nil t m hemp
            omega
          obtain ⟨homem, hoeq, hnmem, hneq⟩ := ihmem hvm
          refine ⟨?_, ?_, fun _ => ⟨?_, ?_, ?_, ?_⟩⟩
          · rw [hoT, if_neg h1, hmin, ← iho]
            exact (min_eq_left (le_of_not_lt h1)).symm
          · rw [hnT, if_neg h2, hmax, ← ihn]
            exact (max_eq_left (le_of_not_lt h2)).symm
          · rw [hoI, if_neg h1, hv]
            exact List.mem_append_left _ homem
          · rw [hoI, hoT, if_neg h1, if_neg h1]
            exact hoeq
          · rw [hnI, if_neg h2, hv]
            exact List.mem_append_left _ hnmem
          · rw [hnI, hnT, if_neg h2, if_neg h2]
            exact hneq
      · have hv : valid_slots t (m + 1) = valid_slots t m := by
          simp [valid_slots, List.range_succ, List.filter_append, hpos]
        have hmin : min_valid_time t (m + 1) = min_valid_time t m := by
          simp [min_valid_time, hv]
        have hmax : max_valid_time t (m + 1) = max_valid_time t m := by
          simp [max_valid_time, hv]
        have hloop : scanLoop t (m + 1) = scanLoop t m := by
          simp [scanLoop, scanStep, hpos]
        rw [hloop, hmin, hmax, hv]
        exact ⟨iho, ihn, ihmem⟩

/-- Claim C1: total-increment conservation.  For every prior tracker state and
every sequence of `advance(n_i)` calls (any interleaving is some sequence of
the atomic operations) whose increments sum to `S`, if no 64-bit overflow
occurs then afterwards `current()` is exactly the prior value plus `S`; and
each single `advance(n, ts)` first adds `n` to the counter and then records
exactly one ring-buffer sample `(new_current, ts)` at the slot given by the
old cursor mod 64, leaving all other slots unchanged and bumping the cursor
by one. -/
theorem c1_advance_total_increment_conservation :
    (∀ (st : TrackerState) (ops : List (Nat × Int)),
      st.current + sum_incs ops < U64 →
      (run_advances st ops).current = st.current + sum_incs ops) ∧
    (∀ (st : TrackerState) (n : Nat) (ts : Int),
      (advance st n ts).current = (st.current + n) % U64 ∧
      (advance st n ts).history (st.history_index % HISTORY_SIZE) =
        ⟨(st.current + n) % U64, ts⟩ ∧
      (∀ i, i ≠ st.history_index % HISTORY_SIZE →
        (advance st n ts).history i = st.history i) ∧
      (advance st n ts).history_index = (st.history_index + 1) % U64) := by
  constructor
  · intro st ops h
    have hc : st.current < U64 := lt_of_le_of_lt (Nat.le_add_right _ _) h
    rw [run_advances_current ops st hc, Nat.mod_eq_of_lt h]
  · intro st n ts
    refine ⟨rfl, ?_, ?_, rfl⟩
    · simp [advance, Function.update]
    · intro i hi
      simp [advance, Function.update, hi]

/-- Witness for C1 at a concrete tracker and call sequence. -/
theorem c1_witness :
    (tracker_init 10).current + sum_incs [(3, 1), (4, 2)] < U64 ∧
    (run_advances (tracker_init 10) [(3, 1), (4, 2)]).current =
      (tracker_init 10).current + sum_incs [(3, 1), (4, 2)] := by
  refine ⟨by decide, ?_⟩
  exact c1_advance_total_increment_conservation.1 (tracker_init 10) [(3, 1), (4, 2)] (by decide)

/-- Claim C2: for every `(current, total)` pair, `percentage()` is `0` when
`total = 0` and `min(100*current/total, 100)` otherwise; hence it always lies
in `[0, 100]`, and overshoot (`current > total`) is clamped to `100`. -/
theorem c2_percentage_clamped (st : TrackerState) :
    (st.total = 0 → percentage st = 0) ∧
    (st.total ≠ 0 →
      percentage st = min (100 * (st.current : ℚ) / (st.total : ℚ)) 100) ∧
    0 ≤ percentage st ∧ percentage st ≤ 100 ∧
    (st.total ≠ 0 → st.total < st.current → percentage st = 100) := by
  refine ⟨fun h => by simp [percentage, h], fun h => by simp [percentage, h], ?_, ?_, ?_⟩
  · unfold percentage
    split
    · norm_num
    · apply le_min
      · positivity
      · norm_num
  · unfold percentage
    split
    · norm_num
    · exact min_le_right _ _
  · intro h hlt
    have ht : (0 : ℚ) < (st.total : ℚ) := by
      exact_mod_cast Nat.pos_of_ne_zero h
    have hcast : (st.total : ℚ) < (st.current : ℚ) := by exact_mod_cast hlt
    have h100 : (100 : ℚ) ≤ 100 * (st.current : ℚ) / (st.total : ℚ) := by
      rw [le_div_iff₀ ht]
      nlinarith
    simp [percentage, h, min_eq_right h100]

/-- Witness for C2 at a concrete overshooting tracker (current 7, total 5). -/
theorem c2_witness :
    (⟨7, 5, fun _ => ⟨0, 0⟩, 0⟩ : TrackerState).total ≠ 0 ∧
    (⟨7, 5, fun _ => ⟨0, 0⟩, 0⟩ : TrackerState).total <
      (⟨7, 5, fun _ => ⟨0, 0⟩, 0⟩ : TrackerState).current ∧
    percentage ⟨7, 5, fun _ => ⟨0, 0⟩, 0⟩ = 100 := by
  refine ⟨by decide, by decide, ?_⟩
  exact (c2_percentage_clamped ⟨7, 5, fun _ => ⟨0, 0⟩, 0⟩).2.2.2.2 (by decide) (by decide)

/-- Counterexample to Claim C3 as stated: a fresh active bar on a
non-interactive output.  One `finish()` call moves the flag false → true,
yet zero terminal render dispatches occur (also after three calls), refuting
"exactly one terminal render dispatch occurs" for every bar. -/
theorem c3_finish_counterexample :
    bar_no_tty.finished = false ∧
    (finish bar_no_tty).1.finished = true ∧
    (finish bar_no_tty).2 = false ∧
    (finishN bar_no_tty 3).2 = 0 := by decide

/-- Claim C3 (amended): for every active bar whose tracker and display are
present, across any `N ≥ 1` `finish()` invocations the flag moves
false → true exactly once, the winning invocation dispatches the terminal
finish operation exactly when the interactive-output signal is true (one
dispatch if tty, zero otherwise), and every call on an already-finished bar
is a no-op. -/
theorem c3_finish_one_shot_amended (b : BarState) (n : Nat)
    (hf : b.finished = false) (ht : b.hasTracker = true)
    (hd : b.hasDisplay = true) (hn : 1 ≤ n) :
    (finishN b n).1.finished = true ∧
    (finishN b n).2 = (if b.tty then 1 else 0) ∧
    (∀ b2 : BarState, b2.finished = true → finish b2 = (b2, false)) := by
  rw [finishN_of_active b hf n hn]
  refine ⟨rfl, by simp [ht, hd], fun b2 h2 => finish_of_finished b2 h2⟩

/-- Witness for amended C3: a fresh tty bar, three finish calls, exactly one
terminal dispatch. -/
theorem c3_witness :
    ({ bar_no_tty with tty := true } : BarState).finished = false ∧
    (finishN { bar_no_tty with tty := true } 3).2 =
      (if ({ bar_no_tty with tty := true } : BarState).tty then 1 else 0) := by
  refine ⟨by decide, ?_⟩
  exact (c3_finish_one_shot_amended { bar_no_tty with tty := true } 3
    (by decide) (by decide) (by decide) (by decide)).2.1

/-- Claim C4: scoped teardown.  A bar destroyed while still active (with its
tracker and display present, as every active bar has) produces exactly one
terminal render during destruction when the interactive-output signal is
true, and zero when it is false. -/
theorem c4_scoped_teardown (b : BarState) (hf : b.finished = false)
    (ht : b.hasTracker = true) (hd : b.hasDisplay = true) :
    (b.tty = true → bar_destructor_renders b = 1) ∧
    (b.tty = false → bar_destructor_renders b = 0) := by
  constructor
  · intro htty
    simp [bar_destructor_renders, finish, hf, ht, hd, htty]
  · intro htty
    simp [bar_destructor_renders, htty]

/-- Witness for C4 at concrete bars, one interactive and one not. -/
theorem c4_witness :
    ({ bar_no_tty with tty := true } : BarState).finished = false ∧
    bar_destructor_renders { bar_no_tty with tty := true } = 1 ∧
    bar_destructor_renders bar_no_tty = 0 := by
  refine ⟨by decide, ?_, ?_⟩
  · exact (c4_scoped_teardown { bar_no_tty with tty := true }
      (by decide) (by decide) (by decide)).1 (by decide)
  · exact (c4_scoped_teardown bar_no_tty (by decide) (by decide) (by decide)).2 (by decide)

/-- Claim C7: render throttling.  A render is dispatched only when
`now - last_render_time ≥ 33 ms` (and the timestamp swap succeeds); a caller
whose window check fails returns without rendering; and after a granted
render at `now`, any further call strictly inside the 33 ms window is
denied, so at most one caller per interval window is granted a render. -/
theorem c7_render_throttle (b : BarState) (now : Int) :
    ((try_render b now).2 = true →
      min_render_interval ≤ now - b.last_render_time) ∧
    (now - b.last_render_time < min_render_interval →
      (try_render b now).2 = false) ∧
    ((try_render b now).2 = true →
      (try_render b now).1.last_render_time = now ∧
      ∀ now2 : Int, now2 - now < min_render_interval →
        (try_render (try_render b now).1 now2).2 = false) := by
  by_cases h1 : (b.tty && b.hasTracker && b.hasDisplay) = true
  · by_cases h2 : min_render_interval ≤ now - b.last_render_time
    · refine ⟨fun _ => h2, fun hlt => absurd h2 (by omega), fun _ => ⟨?_, ?_⟩⟩
      · simp [try_render, h1, h2]
      · intro now2 hw
        have hn2 : ¬ (min_render_interval ≤ now2 - now) := by omega
        simp [try_render, h1, h2, hn2]
    · refine ⟨fun hg => ?_, fun _ => ?_, fun hg => ?_⟩
      · simp [try_render, h1, h2] at hg
      · simp [try_render, h1, h2]
      · simp [try_render, h1, h2] at hg
  · refine ⟨fun hg => ?_, fun _ => ?_, fun hg => ?_⟩
    · simp [try_render, h1] at hg
    · simp [try_render, h1]
    · simp [try_render, h1] at hg

/-- Witness for C7: a tty bar last rendered at 0 is granted a render at 100,
and a follow-up call at 120 (inside the 33 ms window) is denied. -/
theorem c7_witness :
    (120 : Int) - 100 < min_render_interval ∧
    (try_render (try_render { bar_no_tty with tty := true } 100).1 120).2 = false := by
  refine ⟨by decide, ?_⟩
  exact ((c7_render_throttle { bar_no_tty with tty := true } 100).2.2
    (by decide)).2 120 (by decide)

/-- Claim C8: move semantics.  After move construction or move assignment the
new binding holds the tracker and display, while the moved-from source is
left with its finished flag set, so its destructor dispatches no terminal
render and a later `finish()` on it is a no-op: double finalization cannot
occur. -/
theorem c8_move_leaves_source_finished (b t : BarState) :
    (move_construct b).1.hasTracker = b.hasTracker ∧
    (move_construct b).1.hasDisplay = b.hasDisplay ∧
    (move_construct b).2.finished = true ∧
    bar_destructor_renders (move_construct b).2 = 0 ∧
    finish (move_construct b).2 = ((move_construct b).2, false) ∧
    (move_assign t b).2.finished = true ∧
    bar_destructor_renders (move_assign t b).2 = 0 ∧
    finish (move_assign t b).2 = ((move_assign t b).2, false) := by
  refine ⟨rfl, rfl, rfl, ?_, ?_, rfl, ?_, ?_⟩ <;>
    simp [move_construct, move_assign, bar_destructor_renders, finish]

lemma full_iteration_aux (n : Nat) :
    ∀ k, k ≤ n →
      (List.range k).foldl (fun s _ => progress_iterator_step n s) (0, 0) =
        (k, if k = n then k - 1 else k) := by
  intro k
  induction k with
  | zero =>
      intro _
      split <;> simp
  | succ m ihm =>
      intro h
      have hm : m ≤ n := Nat.le_of_succ_le h
      have hmn : m ≠ n := by omega
      rw [List.range_succ, List.foldl_append, ihm hm, if_neg hmn]
      by_cases hc : m + 1 = n
      · subst hc
        simp [progress_iterator_step]
      · simp [progress_iterator_step, hc]

/-- Claim C9: iterator wrapper off-by-one.  `operator++` advances the bar only
when the post-increment position is not yet `end`, so a complete
begin-to-end iteration over a container of `n ≥ 1` elements ends at position
`n` having called `advance` exactly `n - 1` times — one fewer than the
element count. -/
theorem c9_iterator_off_by_one (n : Nat) (_hn : 1 ≤ n) :
    (full_iteration n).1 = n ∧ (full_iteration n).2 = n - 1 := by
  have h := full_iteration_aux n n le_rfl
  unfold full_iteration
  rw [h]
  simp

/-- Witness for C9: iterating a 5-element container calls advance 4 times. -/
theorem c9_witness :
    (1 : Nat) ≤ 5 ∧ (full_iteration 5).2 = 5 - 1 :=
  ⟨by decide, (c9_iterator_off_by_one 5 (by decide)).2⟩

/-- Claim C5: `eta()` returns a zero duration whenever the computed rate is
`≤ 0`, and otherwise returns `(total - current) / rate` as a millisecond
duration (exactly so, with mathematical subtraction, whenever no overshoot
occurred); in particular a fresh tracker with `total = 0` has recomputed
rate `0` and `eta() = 0`, and no division by zero occurs on that path. -/
theorem c5_eta_zero_guard (st : TrackerState) (rate : ℚ) :
    (rate ≤ 0 → eta_ms st rate = 0) ∧
    (0 < rate → st.current ≤ st.total → st.total < U64 →
      eta_ms st rate =
        Int.floor (((st.total - st.current : Nat) : ℚ) / rate * 1000)) ∧
    (get_rate_recompute (tracker_init 0) = 0 ∧
      eta_ms (tracker_init 0) (get_rate_recompute (tracker_init 0)) = 0) := by
  refine ⟨fun h => by simp [eta_ms, h], ?_, by decide, by decide⟩
  intro hr hc ht2
  have hs : sub64 st.total st.current = st.total - st.current :=
    sub64_of_le _ _ hc (lt_of_le_of_lt (Nat.sub_le _ _) ht2)
  simp only [eta_ms, hs, if_neg (not_le.mpr hr)]

/-- Witness for C5: tracker with total 10, current 4, rate 2 per second. -/
theorem c5_witness :
    (0 : ℚ) < 2 ∧
    (⟨4, 10, fun _ => ⟨0, 0⟩, 0⟩ : TrackerState).current ≤
      (⟨4, 10, fun _ => ⟨0, 0⟩, 0⟩ : TrackerState).total ∧
    (⟨4, 10, fun _ => ⟨0, 0⟩, 0⟩ : TrackerState).total < U64 ∧
    eta_ms ⟨4, 10, fun _ => ⟨0, 0⟩, 0⟩ 2 =
      Int.floor ((((10 : Nat) - 4 : Nat) : ℚ) / 2 * 1000) := by
  refine ⟨by norm_num, by decide, by decide, ?_⟩
  exact (c5_eta_zero_guard ⟨4, 10, fun _ => ⟨0, 0⟩, 0⟩ 2).2.1
    (by norm_num) (by decide) (by decide)

/-- Counterexample to Claim C10 as stated: overshoot (current 1, total 0) with
the huge positive rate `10^30` makes the wrapped remaining tiny relative to
the rate, and `eta()` truncates to a zero duration — not an enormous
positive one — so the unrestricted "for every positive rate" claim fails. -/
theorem c10_eta_overshoot_counterexample :
    st_overshoot.total < st_overshoot.current ∧
    (0 : ℚ) < 10 ^ 30 ∧
    eta_ms st_overshoot (10 ^ 30) = 0 := by
  refine ⟨by decide, by positivity, ?_⟩
  have hsub : sub64 st_overshoot.total st_overshoot.current = 18446744073709551615 := by
    decide
  have hrate : ¬ ((10 : ℚ) ^ 30 ≤ 0) := not_le.mpr (by positivity)
  simp only [eta_ms, if_neg hrate, hsub]
  rw [Int.floor_eq_zero_iff, Set.mem_Ico]
  norm_num

/-- Claim C10 (amended): `eta()` computes the remaining work as unsigned
64-bit subtraction with no clamp, so in every overshoot state
(`current > total`) the difference wraps to `2^64 - (current - total)`, and
whenever the positive rate does not exceed that wrapped count per second
(any realistic rate), `eta()` returns the wrapped remainder divided by the
rate — a duration of at least a full second — rather than zero. -/
theorem c10_eta_overshoot_wrap_amended (st : TrackerState) (rate : ℚ)
    (h1 : st.total < st.current) (h2 : st.current < U64) (h3 : 0 < rate)
    (h4 : rate ≤ (sub64 st.total st.current : ℚ)) :
    sub64 st.total st.current = U64 - (st.current - st.total) ∧
    eta_ms st rate = Int.floor ((sub64 st.total st.current : ℚ) / rate * 1000) ∧
    1000 ≤ eta_ms st rate := by
  have hwrap : sub64 st.total st.current = U64 - (st.current - st.total) :=
    sub64_of_lt _ _ h1 h2
  have heq : eta_ms st rate =
      Int.floor ((sub64 st.total st.current : ℚ) / rate * 1000) := by
    simp only [eta_ms, if_neg (not_le.mpr h3)]
  refine ⟨hwrap, heq, ?_⟩
  rw [heq]
  rw [Int.le_floor]
  have hdiv : (1 : ℚ) ≤ (sub64 st.total st.current : ℚ) / rate :=
    (one_le_div h3).mpr h4
  push_cast
  nlinarith

/-- Claim C6: the rate estimator's recompute path scans the first
`min(K, history_index)` ring slots (`K = 64`); among slots with timestamp
`> 0` it selects one with the minimum timestamp (oldest) and one with the
maximum timestamp (newest) and returns
`1e6 * (newest.progress − oldest.progress) / (newest.timestamp −
oldest.timestamp)` (per-second scaling of the microsecond timestamps, with
size_t subtraction on the progress values); it returns `0` whenever fewer
than two valid samples exist or the elapsed time between oldest and newest
is zero.  Timestamps are `now − start` microsecond counts, so they sit
strictly below `INT64_MAX`. -/
theorem c6_rate_estimator_min_max (st : TrackerState)
    (ht : ∀ i, i < HISTORY_SIZE → (st.history i).timestamp < INT64_MAX) :
    ((valid_slots (history_times st) (entries_to_check st)).length < 2 →
      get_rate_recompute st = 0) ∧
    (max_valid_time (history_times st) (entries_to_check st) =
        min_valid_time (history_times st) (entries_to_check st) →
      get_rate_recompute st = 0) ∧
    (min_valid_time (history_times st) (entries_to_check st) <
        max_valid_time (history_times st) (entries_to_check st) →
      ∃ i ∈ valid_slots (history_times st) (entries_to_check st),
      ∃ j ∈ valid_slots (history_times st) (entries_to_check st),
        history_times st i = min_valid_time (history_times st) (entries_to_check st) ∧
        history_times st j = max_valid_time (history_times st) (entries_to_check st) ∧
        get_rate_recompute st =
          1000000 * (sub64 (st.history j).progress (st.history i).progress : ℚ) /
            ((max_valid_time (history_times st) (entries_to_check st) -
              min_valid_time (history_times st) (entries_to_check st) : Int) : ℚ)) := by
  set t := history_times st with hts
  set e := entries_to_check st with hee
  have he : e ≤ HISTORY_SIZE := min_le_left _ _
  have ht2 : ∀ i, i < e → t i < INT64_MAX := fun i hi => ht i (lt_of_lt_of_le hi he)
  obtain ⟨ho, hn, hmem⟩ := scanLoop_spec t e ht2
  have hunfold : get_rate_recompute st = rate_from_scan st (scanLoop t e) := rfl
  refine ⟨?_, ?_, ?_⟩
  · intro hlen
    have h01 : (valid_slots t e).length = 0 ∨ (valid_slots t e).length = 1 := by omega
    rw [hunfold]
    unfold rate_from_scan
    rcases h01 with h0 | h1
    · have hv : valid_slots t e = [] := List.length_eq_zero.mp h0
      rw [if_neg]
      rintro ⟨hlt, -⟩
      rw [ho, hn, min_valid_time_nil t e hv, max_valid_time_nil t e hv] at hlt
      norm_num [INT64_MAX] at hlt
    · obtain ⟨a, hv⟩ := List.length_eq_one.mp h1
      have ham : a ∈ valid_slots t e := by rw [hv]; simp
      have ham2 : a ∈ List.range e ∧ 0 < t a := by
        simpa [valid_slots] using ham
      have haMAX : t a < INT64_MAX := ht2 a (List.mem_range.mp ham2.1)
      have hmin1 : min_valid_time t e = t a := by
        simp [min_valid_time, hv, min_eq_right (le_of_lt haMAX)]
      have hmax1 : max_valid_time t e = t a := by
        simp [max_valid_time, hv, max_eq_right (le_of_lt ham2.2)]
      rw [if_neg]
      rintro ⟨hlt, -⟩
      rw [ho, hn, hmin1, hmax1] at hlt
      exact lt_irrefl _ hlt
  · intro heq
    rw [hunfold]
    unfold rate_from_scan
    rw [if_neg]
    rintro ⟨hlt, -⟩
    rw [ho, hn, heq] at hlt
    exact lt_irrefl _ hlt
  · intro hlt
    have hvne : valid_slots t e ≠ [] := by
      intro hemp
      rw [min_valid_time_nil t e hemp, max_valid_time_nil t e hemp] at hlt
      norm_num [INT64_MAX] at hlt
    obtain ⟨homem, hoeq, hnmem, hneq⟩ := hmem hvne
    have hidx : (scanLoop t e).newest_idx ≠ (scanLoop t e).oldest_idx := by
      intro hcontra
      rw [hcontra, hoeq] at hneq
      omega
    refine ⟨(scanLoop t e).oldest_idx, homem, (scanLoop t e).newest_idx, hnmem,
      ?_, ?_, ?_⟩
    · rw [hoeq, ho]
    · rw [hneq, hn]
    · rw [hunfold]
      unfold rate_from_scan
      rw [if_pos ⟨by rw [ho, hn]; exact hlt, hidx⟩]
      rw [if_pos (by rw [ho, hn]; omega)]
      rw [ho, hn]

/-- Witness for C6: a tracker with samples `(10, 5 µs)` and `(30, 15 µs)`
has two valid slots with distinct timestamps, and the theorem produces the
oldest/newest pair realizing the rate formula. -/
theorem c6_witness :
    (∀ i, i < HISTORY_SIZE →
      (st_two_samples.history i).timestamp < INT64_MAX) ∧
    min_valid_time (history_times st_two_samples) (entries_to_check st_two_samples) <
      max_valid_time (history_times st_two_samples) (entries_to_check st_two_samples) ∧
    (∃ i ∈ valid_slots (history_times st_two_samples) (entries_to_check st_two_samples),
     ∃ j ∈ valid_slots (history_times st_two_samples) (entries_to_check st_two_samples),
      history_times st_two_samples i =
        min_valid_time (history_times st_two_samples) (entries_to_check st_two_samples) ∧
      history_times st_two_samples j =
        max_valid_time (history_times st_two_samples) (entries_to_check st_two_samples) ∧
      get_rate_recompute st_two_samples =
        1000000 * (sub64 (st_two_samples.history j).progress
            (st_two_samples.history i).progress : ℚ) /
          ((max_valid_time (history_times st_two_samples) (entries_to_check st_two_samples) -
            min_valid_time (history_times st_two_samples)
              (entries_to_check st_two_samples) : Int) : ℚ)) := by
  refine ⟨by decide, by decide, ?_⟩
  exact (c6_rate_estimator_min_max st_two_samples (by decide)).2.2 (by decide)

/-- Witness for amended C10: overshoot by one past total 0 at rate 1000/s
yields a wrapped remaining of `2^64 - 1` and an eta of at least a second. -/
theorem c10_witness :
    st_overshoot.total < st_overshoot.current ∧
    st_overshoot.current < U64 ∧
    (0 : ℚ) < 1000 ∧
    (1000 : ℚ) ≤ (sub64 st_overshoot.total st_overshoot.current : ℚ) ∧
    1000 ≤ eta_ms st_overshoot 1000 := by
  refine ⟨by decide, by decide, by norm_num, by decide, ?_⟩
  exact (c10_eta_overshoot_wrap_amended st_overshoot 1000
    (by decide) (by decide) (by norm_num) (by decide)).2.2

end Tqdm
